import Mathlib

/-
Verification of the `jc` JSON-to-CSV converter (src/main.rs) against its
specification.  The Rust program is shallowly embedded: JSON values become an
inductive type, the configuration struct becomes a structure, and the
field-by-field streaming writes of `print_line` / `print_header` / `run` are
modelled as pure functions returning the string written so far together with
the first error, if any.  The debug-mode panic of the `usize` subtraction
`columns.len() - 1` is modelled by an `Option` layer (`none` = underflow
panic).  File paths, TTY buffering and the serde_json text parser are the I/O
collaborators the spec excludes; parser outcomes are therefore passed in as
already-decoded values (`Except Unit Value` for single-document mode, a list
of decode items for concatenated mode), exactly at the interface `run`
consumes them.
-/

set_option maxHeartbeats 1000000

namespace JC

/-- JSON values, mirroring `serde_json::Value`.  Numbers are modelled as
integers (none of the verified claims involves floating-point formatting);
objects are association lists with the distinct keys that `serde_json::Map`
guarantees. -/
inductive Value where
  | null
  | bool (b : Bool)
  | num (n : Int)
  | str (s : String)
  | arr (elems : List Value)
  | obj (fields : List (String × Value))

/-- Resolved configuration, mirroring the `JCArgs` struct of src/main.rs
(the `in_file` / `out_file` path fields are I/O plumbing the spec excludes). -/
structure JCArgs where
  columns : List String
  separator : String
  show_headers : Bool
  raw : Bool
  no_root : Bool

/-- The command-line matches `JCArgs::from_matches` reads: presence of the
RAW, NO-HEADERS and NO-ROOT flags plus the COLUMNS and SEP values (COLUMNS is
required and SEP has a default, so both are always present). -/
structure Matches where
  columns : List String
  raw_present : Bool
  sep : String
  no_headers_present : Bool
  no_root_present : Bool

/-- `JCArgs::from_matches`: `raw` is the RAW flag, `show_headers` is the
negation of the NO-HEADERS flag, `no_root` is the NO-ROOT flag. -/
def JCArgs.from_matches (m : Matches) : JCArgs :=
  { columns := m.columns
    raw := m.raw_present
    separator := m.sep
    show_headers := !m.no_headers_present
    no_root := m.no_root_present }

/-- Join a list of strings with a separator between consecutive elements
(the shape produced by writing the separator after every element except the
last). -/
def joinSep (sep : String) : List String → String
  | [] => ""
  | [x] => x
  | x :: y :: xs => x ++ sep ++ joinSep sep (y :: xs)

/-- Lower-case hexadecimal digit. -/
def hexDigit (n : Nat) : Char :=
  if n < 10 then Char.ofNat (48 + n) else Char.ofNat (87 + (n % 16))

/-- JSON string escaping as `serde_json` performs it when displaying a value:
quote, backslash and the named control characters get two-character escapes,
all other control characters get a `\u00XX` escape. -/
def escJsonChar (c : Char) : String :=
  if c = '"' then "\\\""
  else if c = '\\' then "\\\\"
  else if c = '\n' then "\\n"
  else if c = '\r' then "\\r"
  else if c = '\t' then "\\t"
  else if c.toNat = 8 then "\\b"
  else if c.toNat = 12 then "\\f"
  else if c.toNat < 32 then
    String.mk ['\\', 'u', '0', '0', hexDigit (c.toNat / 16), hexDigit (c.toNat % 16)]
  else String.singleton c

/-- Escape every character of a string for JSON display. -/
def escJson (s : String) : String :=
  s.data.foldr (fun c acc => escJsonChar c ++ acc) ""

mutual

/-- Compact JSON rendering of a value, mirroring the `Display` implementation
of `serde_json::Value` that `format_err!("... {}", e)` invokes. -/
def render : Value → String
  | .null => "null"
  | .bool b => if b then "true" else "false"
  | .num n => toString n
  | .str s => "\"" ++ escJson s ++ "\""
  | .arr xs => "[" ++ renderElems xs ++ "]"
  | .obj fs => "\x7b" ++ renderFields fs ++ "\x7d"

/-- Comma-joined rendering of array elements. -/
def renderElems : List Value → String
  | [] => ""
  | [v] => render v
  | v :: w :: vs => render v ++ "," ++ renderElems (w :: vs)

/-- Comma-joined rendering of object fields. -/
def renderFields : List (String × Value) → String
  | [] => ""
  | [(k, v)] => "\"" ++ escJson k ++ "\":" ++ render v
  | (k, v) :: f :: fs =>
    "\"" ++ escJson k ++ "\":" ++ render v ++ "," ++ renderFields (f :: fs)

end

/-- Errors the engine can produce.  `invalidColumn` and `invalidJsonObject`
carry the compact rendering of the offending value that `format_err!`
interpolates; the parse error's text comes from serde_json and is not
modelled. -/
inductive JCError where
  | invalidColumn (rendered : String)
  | invalidJsonObject (rendered : String)
  | rootNotArray
  | parseError
  deriving DecidableEq

/-- Human-readable message of each engine error, as built by `format_err!`
(for the parse error the text comes from serde_json and is left abstract). -/
def messageOf : JCError → String
  | .invalidColumn r => "invalid column: " ++ r
  | .invalidJsonObject r => "invalid json object: " ++ r
  | .rootNotArray => "root object is not an array"
  | .parseError => ""

/-- Whether a value is a JSON Object. -/
def Value.isObject : Value → Bool
  | .obj _ => true
  | _ => false

/-- Whether a value is a JSON Array. -/
def Value.isArray : Value → Bool
  | .arr _ => true
  | _ => false

/-- Whether a value is a nested shape (Array or Object), invalid as a column
value. -/
def Value.isNested : Value → Bool
  | .arr _ => true
  | .obj _ => true
  | _ => false

/-- Plain association-list lookup on an object's fields (first match). -/
def lookupKey : List (String × Value) → String → Option Value
  | [], _ => none
  | (k, v) :: rest, col => if k = col then some v else lookupKey rest col

/-- `object[col]` of serde_json: indexing a `Value::Object` by a string key
yields the stored value, or `Value::Null` when the key is absent. -/
def objIndex (fields : List (String × Value)) (col : String) : Value :=
  match lookupKey fields col with
  | some v => v
  | none => Value.null

/-- One `replace("\"", "\"\"")` step on the character list: every double
quote is doubled, every other character is kept. -/
def doubleQuotesL : List Char → List Char
  | [] => []
  | c :: cs => if c = '"' then '"' :: '"' :: doubleQuotesL cs else c :: doubleQuotesL cs

/-- Naive CSV quote-unescape: collapse each doubled double-quote back to a
single one. -/
def unDoubleL : List Char → List Char
  | [] => []
  | [c] => [c]
  | a :: b :: cs =>
    if a = '"' ∧ b = '"' then '"' :: unDoubleL cs else a :: unDoubleL (b :: cs)

/-- `s.replace("\"", "\"\"")` of Rust on strings. -/
def replaceQuote (s : String) : String :=
  String.mk (doubleQuotesL s.data)

/-- Serialization of one resolved column value, following the match in
`print_line`: strings are CSV-quoted unless `raw`, booleans and numbers print
their literal text, `Null` prints nothing, and a nested Array/Object is the
`invalid column` error carrying the value's rendering. -/
def fieldOutput (args : JCArgs) : Value → Except JCError String
  | .str s =>
    .ok (if args.raw then s else "\"" ++ replaceQuote s ++ "\"")
  | .bool b => .ok (if b then "true" else "false")
  | .num n => .ok (toString n)
  | .null => .ok ""
  | v => .error (.invalidColumn (render v))

/-- Checked `usize` subtraction: `none` models the debug-mode underflow panic
of `a - b` when `a < b`. -/
def usizeSub (a b : Nat) : Option Nat :=
  if a < b then none else some (a - b)

/-- The column loop of `print_line`: starting at index `i`, write each
column's serialized field, then the separator whenever the index differs from
`last`, and a final newline after the loop; abort at the first invalid
column, returning the output written so far and the first error. -/
def printColumns (args : JCArgs) (fields : List (String × Value)) (last : Nat) :
    Nat → List String → String × Option JCError
  | _, [] => ("\n", none)
  | i, col :: rest =>
    match fieldOutput args (objIndex fields col) with
    | .error e => ("", some e)
    | .ok s =>
      (s ++ (if i = last then "" else args.separator) ++
          (printColumns args fields last (i + 1) rest).1,
        (printColumns args fields last (i + 1) rest).2)

/-- `print_line`: compute `columns.len() - 1` (`none` models the underflow
panic on an empty column list), then require the element to be a JSON Object
— otherwise the `invalid json object` error — and run the column loop.  The
result is the string written to the output stream paired with the first
error, if any. -/
def print_line (element : Value) (args : JCArgs) : Option (String × Option JCError) :=
  match usizeSub args.columns.length 1 with
  | none => none
  | some last_column =>
    match element with
    | .obj fields => some (printColumns args fields last_column 0 args.columns)
    | e => some ("", some (.invalidJsonObject (render e)))

/-- The header loop of `print_header`: write each column name, then the
separator whenever the index differs from `last`. -/
def headerColumns (args : JCArgs) (last : Nat) : Nat → List String → String
  | _, [] => ""
  | i, col :: rest =>
    col ++ (if i = last then "" else args.separator) ++ headerColumns args last (i + 1) rest

/-- `print_header`: a no-op when `show_headers` is false; otherwise compute
`columns.len() - 1` (`none` models the underflow panic) and write the
separator-joined column names followed by a newline. -/
def print_header (args : JCArgs) : Option String :=
  if args.show_headers then
    match usizeSub args.columns.length 1 with
    | none => none
    | some last_column => some (headerColumns args last_column 0 args.columns ++ "\n")
  else some ""

/-- The `try_for_each` loop of single-document mode: print each element in
stored order, stopping at the first element whose `print_line` fails, and
concatenate everything written. -/
def processElements (args : JCArgs) : List Value → Option (String × Option JCError)
  | [] => some ("", none)
  | v :: vs =>
    match print_line v args with
    | none => none
    | some (out, some e) => some (out, some e)
    | some (out, none) =>
      match processElements args vs with
      | none => none
      | some (rest, err) => some (out ++ rest, err)

/-- One pull from the concatenated-documents deserializer iterator: either a
decoded top-level value or a JSON parse failure. -/
inductive DecodeItem where
  | ok (v : Value)
  | err

/-- The `for result in elements` loop of concatenated mode: each decoded
value is printed as it arrives; a parse failure aborts via `?` before
anything of that value is printed. -/
def processStream (args : JCArgs) : List DecodeItem → Option (String × Option JCError)
  | [] => some ("", none)
  | .err :: _ => some ("", some .parseError)
  | .ok v :: rest =>
    match print_line v args with
    | none => none
    | some (out, some e) => some (out, some e)
    | some (out, none) =>
      match processStream args rest with
      | none => none
      | some (restOut, err) => some (out ++ restOut, err)

/-- The `no_root` branch of `run`: the header is printed first (the lazy
deserializer iterator has not pulled anything yet), then the stream is
consumed value by value. -/
def runConcat (args : JCArgs) (stream : List DecodeItem) : Option (String × Option JCError) :=
  match print_header args with
  | none => none
  | some h =>
    match processStream args stream with
    | none => none
    | some (out, err) => some (h ++ out, err)

/-- The single-document branch of `run`: `serde_json::from_reader` runs
before anything is written (`?` propagates its failure), the decoded root
must be an Array — otherwise the `root object is not an array` error — and
only then are the header and the element rows written. -/
def runSingle (args : JCArgs) (parsed : Except Unit Value) : Option (String × Option JCError) :=
  match parsed with
  | .error _ => some ("", some .parseError)
  | .ok (.arr elements) =>
    match print_header args with
    | none => none
    | some h =>
      match processElements args elements with
      | none => none
      | some (out, err) => some (h ++ out, err)
  | .ok _ => some ("", some .rootNotArray)

/-- `run`: mode selection on the `no_root` flag.  The two decoder outcomes
(whole-stream parse for single-document mode, item stream for concatenated
mode) are passed in at the interface where serde_json delivers them; the
branch taken ignores the other one. -/
def run (args : JCArgs) (singleParsed : Except Unit Value) (stream : List DecodeItem) :
    Option (String × Option JCError) :=
  if args.no_root then runConcat args stream else runSingle args singleParsed

/-- `print_line` succeeded on this value: a full row was written, no error. -/
def printOk (args : JCArgs) (v : Value) : Prop :=
  ∃ out, print_line v args = some (out, none)

/-- The row text `print_line` writes for a value (meaningful when it
succeeds). -/
def lineOf (args : JCArgs) (v : Value) : String :=
  ((print_line v args).getD ("", none)).1

/-- First requested column value that is a nested Array/Object, in column
order. -/
def firstNested (cols : List String) (fields : List (String × Value)) : Option Value :=
  cols.findSome? fun c =>
    let v := objIndex fields c
    if v.isNested then some v else none

/-- Does `needle` occur at the head of `hay`? -/
def occursAt : List Char → List Char → Bool
  | [], _ => true
  | _ :: _, [] => false
  | a :: as, b :: bs => a = b && occursAt as bs

/-- Does `needle` occur anywhere in `hay`? -/
def occursIn (needle : List Char) : List Char → Bool
  | [] => occursAt needle []
  | c :: rest => occursAt needle (c :: rest) || occursIn needle rest

/-- Substring occurrence on strings. -/
def strContains (hay needle : String) : Bool :=
  occursIn needle.data hay.data

/-- The text a scalar column value serializes to (the `.ok` payload of
`fieldOutput`; nested values, which error, contribute the empty string). -/
def scalarText (args : JCArgs) (v : Value) : String :=
  match fieldOutput args v with
  | .ok s => s
  | .error _ => ""

/-- Concatenation of a list of strings. -/
def concatAll : List String → String
  | [] => ""
  | s :: rest => s ++ concatAll rest

/- ### Helper lemmas -/

/-- A non-empty column list makes `columns.len() - 1` well defined. -/
theorem usizeSub_length_one {cols : List String} (h : cols ≠ []) :
    usizeSub cols.length 1 = some (cols.length - 1) := by
  cases cols with
  | nil => exact absurd rfl h
  | cons c rest => simp [usizeSub]

/-- Nested values are exactly the ones `fieldOutput` rejects, and the error
carries the value's rendering. -/
theorem fieldOutput_of_nested (args : JCArgs) {w : Value} (h : w.isNested = true) :
    fieldOutput args w = .error (.invalidColumn (render w)) := by
  cases w <;> simp_all [Value.isNested, fieldOutput]

/-- Non-nested values serialize successfully, to their `scalarText`. -/
theorem fieldOutput_of_not_nested (args : JCArgs) {w : Value} (h : w.isNested = false) :
    fieldOutput args w = .ok (scalarText args w) := by
  cases w <;> simp_all [Value.isNested, fieldOutput, scalarText]

/-- The error component of the column loop is the `invalid column` error of
the first nested column value, independently of the index bookkeeping. -/
theorem printColumns_snd (args : JCArgs) (fields : List (String × Value)) (last : Nat) :
    ∀ (cols : List String) (i : Nat),
      (printColumns args fields last i cols).2 =
        (firstNested cols fields).map fun v => JCError.invalidColumn (render v) := by
  intro cols
  induction cols with
  | nil => intro i; simp [printColumns, firstNested]
  | cons col rest ih =>
    intro i
    by_cases hn : (objIndex fields col).isNested
    · rw [printColumns, fieldOutput_of_nested args hn]
      simp [firstNested, List.findSome?_cons, hn]
    · rw [printColumns, fieldOutput_of_not_nested args (by simpa using hn)]
      simp only [firstNested, List.findSome?_cons] at ih ⊢
      simp [hn, ih (i + 1)]

/-- The column loop only reads the object through `objIndex`: objects with
pointwise-equal lookups print identically. -/
theorem printColumns_congr (args : JCArgs) {f1 f2 : List (String × Value)} (last : Nat)
    (h : ∀ col, objIndex f1 col = objIndex f2 col) :
    ∀ (cols : List String) (i : Nat),
      printColumns args f1 last i cols = printColumns args f2 last i cols := by
  intro cols
  induction cols with
  | nil => intro i; rfl
  | cons col rest ih =>
    intro i
    rw [printColumns, printColumns, h col, ih (i + 1)]

/-- The header loop starting at index `i` over a non-empty suffix whose last
index is `i + length - 1` writes the separator-joined names. -/
theorem headerColumns_joinSep (args : JCArgs) :
    ∀ (cols : List String) (i : Nat), cols ≠ [] →
      headerColumns args (i + cols.length - 1) i cols = joinSep args.separator cols := by
  intro cols
  induction cols with
  | nil => intro i h; exact absurd rfl h
  | cons x rest ih =>
    intro i _
    cases rest with
    | nil =>
      simp [headerColumns, joinSep, String.append_empty]
    | cons y t =>
      have hne : i ≠ i + (y :: t).length := by
        have : 0 < (y :: t).length := by simp
        omega
      have harith : i + (x :: y :: t).length - 1 = (i + 1) + (y :: t).length - 1 := by
        simp [List.length_cons]; omega
      rw [harith, headerColumns]
      have hlast : i = (i + 1) + (y :: t).length - 1 → False := by
        simp [List.length_cons]; omega
      rw [if_neg hlast, ih (i + 1) (by simp)]
      simp [joinSep, String.append_assoc]

/-- The column loop over all-scalar columns writes the separator-joined
serialized fields followed by the newline, with no error. -/
theorem printColumns_joinSep (args : JCArgs) (fields : List (String × Value)) :
    ∀ (cols : List String) (i : Nat), cols ≠ [] →
      (∀ c ∈ cols, (objIndex fields c).isNested = false) →
      printColumns args fields (i + cols.length - 1) i cols =
        (joinSep args.separator (cols.map fun c => scalarText args (objIndex fields c)) ++ "\n",
          none) := by
  intro cols
  induction cols with
  | nil => intro i h; exact absurd rfl h
  | cons x rest ih =>
    intro i _ hsc
    have hx : (objIndex fields x).isNested = false := hsc x (by simp)
    cases rest with
    | nil =>
      rw [printColumns, fieldOutput_of_not_nested args hx]
      simp [printColumns, joinSep, String.append_empty]
    | cons y t =>
      have harith : i + (x :: y :: t).length - 1 = (i + 1) + (y :: t).length - 1 := by
        simp [List.length_cons]; omega
      rw [harith, printColumns, fieldOutput_of_not_nested args hx]
      have hlast : i = (i + 1) + (y :: t).length - 1 → False := by
        simp [List.length_cons]; omega
      rw [ih (i + 1) (by simp) (fun c hc => hsc c (by simp [hc]))]
      rw [if_neg hlast]
      simp [joinSep, String.append_assoc]

/-- A successful `print_line` returns exactly `(lineOf args v, none)`. -/
theorem print_line_of_printOk {args : JCArgs} {v : Value} (h : printOk args v) :
    print_line v args = some (lineOf args v, none) := by
  obtain ⟨out, hout⟩ := h
  rw [lineOf, hout]
  rfl

/-- The element loop over rows that all print successfully concatenates
their lines, in stored order, with no error. -/
theorem processElements_allOk (args : JCArgs) :
    ∀ (es : List Value), (∀ v ∈ es, printOk args v) →
      processElements args es = some (concatAll (es.map (lineOf args)), none) := by
  intro es
  induction es with
  | nil => intro _; rfl
  | cons v vs ih =>
    intro h
    have h1 := print_line_of_printOk (h v (by simp))
    have h2 := ih (fun w hw => h w (by simp [hw]))
    simp [processElements, h1, h2, concatAll]

/-- The element loop aborts at the first failing row: the good prefix's
lines are written, then the failing row's partial output, the error is the
failing row's error, and nothing after it is consumed. -/
theorem processElements_abort (args : JCArgs) :
    ∀ (goods : List Value) (bad : Value) (rest : List Value) (outb : String) (e : JCError),
      (∀ v ∈ goods, printOk args v) →
      print_line bad args = some (outb, some e) →
      processElements args (goods ++ bad :: rest) =
        some (concatAll (goods.map (lineOf args)) ++ outb, some e) := by
  intro goods
  induction goods with
  | nil =>
    intro bad rest outb e _ hbad
    simp [processElements, hbad, concatAll, String.empty_append]
  | cons g gs ih =>
    intro bad rest outb e h hbad
    have h1 := print_line_of_printOk (h g (by simp))
    have h2 := ih bad rest outb e (fun w hw => h w (by simp [hw])) hbad
    simp [processElements, h1, h2, concatAll, String.append_assoc]

/-- Un-doubling recovers the original character list: `doubleQuotesL` is a
section of `unDoubleL`. -/
theorem unDouble_double : ∀ (l : List Char), unDoubleL (doubleQuotesL l) = l := by
  intro l
  induction l with
  | nil => rfl
  | cons c cs ih =>
    by_cases hc : c = '"'
    · subst hc
      rw [doubleQuotesL, if_pos rfl, unDoubleL, if_pos ⟨rfl, rfl⟩, ih]
    · rw [doubleQuotesL, if_neg hc]
      cases hd : doubleQuotesL cs with
      | nil =>
        have hcs : cs = [] := by
          cases cs with
          | nil => rfl
          | cons d ds =>
            rw [doubleQuotesL] at hd
            by_cases hdq : d = '"' <;> simp [hdq] at hd
        subst hcs
        rfl
      | cons d ds =>
        rw [unDoubleL, if_neg (fun hand => hc hand.1), ← hd, ih]

/-- A non-Object element makes `print_line` fail immediately with the
`invalid json object` error rendering the element, writing nothing. -/
theorem print_line_not_object {args : JCArgs} {v : Value} (hcols : args.columns ≠ [])
    (h : v.isObject = false) :
    print_line v args = some ("", some (JCError.invalidJsonObject (render v))) := by
  rw [print_line, usizeSub_length_one hcols]
  cases v with
  | obj fs => simp [Value.isObject] at h
  | null => rfl
  | bool b => rfl
  | num n => rfl
  | str s => rfl
  | arr xs => rfl

/-- With headers enabled and a non-empty column list, `print_header` writes
the separator-joined column names and a newline. -/
theorem print_header_show {args : JCArgs} (hs : args.show_headers = true)
    (hcols : args.columns ≠ []) :
    print_header args = some (joinSep args.separator args.columns ++ "\n") := by
  have hj := headerColumns_joinSep args args.columns 0 hcols
  rw [print_header, hs, usizeSub_length_one hcols]
  show some (headerColumns args (args.columns.length - 1) 0 args.columns ++ "\n") =
    some (joinSep args.separator args.columns ++ "\n")
  have harith : args.columns.length - 1 = 0 + args.columns.length - 1 := by omega
  rw [harith, hj]

/- ### Claim theorems -/

/-- C1 counterexample: a resolved configuration with the raw flag present
and the no-headers flag absent keeps `show_headers` true, and the header
line is written — refuting that setting raw forces show-headers to false. -/
theorem c1_counterexample :
    (JCArgs.from_matches (Matches.mk ["a"] true "," false false)).raw = true ∧
    (JCArgs.from_matches (Matches.mk ["a"] true "," false false)).show_headers = true ∧
    print_header (JCArgs.from_matches (Matches.mk ["a"] true "," false false)) = some "a\n" := by
  refine ⟨rfl, rfl, ?_⟩
  rfl

/-- C1 (amended): in `JCArgs::from_matches` the show-headers flag depends
only on the no-headers flag (its negation) and the raw flag only sets `raw`;
raw does not force the header line off. -/
theorem c1_raw_headers_independent (m : Matches) :
    (JCArgs.from_matches m).show_headers = !m.no_headers_present ∧
    (JCArgs.from_matches m).raw = m.raw_present :=
  ⟨rfl, rfl⟩

/-- C2 counterexample: with the single requested column "zz" bound to an
empty Array, `print_line` fails with the `invalid column` error, but the
error's message is "invalid column: []" — it carries the rendered value and
does not name the column. -/
theorem c2_counterexample :
    print_line (Value.obj [("zz", Value.arr [])]) (JCArgs.mk ["zz"] "," true false false) =
      some ("", some (JCError.invalidColumn "[]")) ∧
    strContains (messageOf (JCError.invalidColumn "[]")) "zz" = false := by
  constructor
  · rfl
  · decide

/-- C2 (amended): for every object row, if some requested column's resolved
field value is a JSON Array or nested Object then `print_line` fails the
whole run with an `invalid column` error, and the error's message is
"invalid column: " followed by the compact JSON rendering of the first such
column's value (the value, not the column name, is what the message names). -/
theorem c2_first_nested_fails (args : JCArgs) (fields : List (String × Value)) (v : Value)
    (hcols : args.columns ≠ []) (hfn : firstNested args.columns fields = some v) :
    ∃ out, print_line (Value.obj fields) args =
        some (out, some (JCError.invalidColumn (render v))) ∧
      messageOf (JCError.invalidColumn (render v)) = "invalid column: " ++ render v := by
  have hsnd : (printColumns args fields (args.columns.length - 1) 0 args.columns).2 =
      some (JCError.invalidColumn (render v)) := by
    have h0 := printColumns_snd args fields (args.columns.length - 1) args.columns 0
    rw [hfn] at h0
    exact h0
  refine ⟨(printColumns args fields (args.columns.length - 1) 0 args.columns).1, ?_, rfl⟩
  rw [print_line, usizeSub_length_one hcols]
  show some (printColumns args fields (args.columns.length - 1) 0 args.columns) =
    some ((printColumns args fields (args.columns.length - 1) 0 args.columns).1,
      some (JCError.invalidColumn (render v)))
  rw [← hsnd, Prod.mk.eta]

/-- C2 witness: a two-column configuration whose second column is a nested
object fails with the `invalid column` error rendering that object. -/
theorem c2_witness :
    ∃ out,
      print_line (Value.obj [("a", Value.num 1), ("b", Value.obj [])])
          (JCArgs.mk ["a", "b"] "," true false false) =
        some (out, some (JCError.invalidColumn (render (Value.obj [])))) ∧
      messageOf (JCError.invalidColumn (render (Value.obj []))) =
        "invalid column: " ++ render (Value.obj []) :=
  c2_first_nested_fails (JCArgs.mk ["a", "b"] "," true false false)
    [("a", Value.num 1), ("b", Value.obj [])] (Value.obj [])
    (by decide) rfl

/-- C3: for every object and requested column, a field absent from the
object resolves to `Value.null` (serde indexing yields Null for an absent
key), Null serializes to the empty field with no error, and the printed
line of the object is identical to that of the same object carrying an
explicit Null for that key — no error and no skipped row. -/
theorem c3_missing_equals_null (args : JCArgs) (fields : List (String × Value)) (c : String)
    (h : lookupKey fields c = none) :
    objIndex fields c = Value.null ∧
    fieldOutput args Value.null = Except.ok "" ∧
    print_line (Value.obj ((c, Value.null) :: fields)) args =
      print_line (Value.obj fields) args := by
  have hidx : objIndex fields c = Value.null := by
    rw [objIndex, h]
  refine ⟨hidx, rfl, ?_⟩
  have hpt : ∀ col, objIndex ((c, Value.null) :: fields) col = objIndex fields col := by
    intro col
    by_cases hcc : c = col
    · subst hcc
      rw [hidx, objIndex, lookupKey, if_pos rfl]
    · rw [objIndex, lookupKey, if_neg hcc, ← objIndex]
  rw [print_line, print_line]
  cases usizeSub args.columns.length 1 with
  | none => rfl
  | some last =>
    show some (printColumns args ((c, Value.null) :: fields) last 0 args.columns) =
      some (printColumns args fields last 0 args.columns)
    rw [printColumns_congr args last hpt]

/-- C3 witness: the object lacking key "b" prints the same line as the
object with "b" explicitly Null, and the lookup yields Null. -/
theorem c3_witness :
    objIndex [("a", Value.num 1)] "b" = Value.null ∧
    fieldOutput (JCArgs.mk ["a", "b"] "," true false false) Value.null = Except.ok "" ∧
    print_line (Value.obj [("b", Value.null), ("a", Value.num 1)])
        (JCArgs.mk ["a", "b"] "," true false false) =
      print_line (Value.obj [("a", Value.num 1)]) (JCArgs.mk ["a", "b"] "," true false false) :=
  c3_missing_equals_null (JCArgs.mk ["a", "b"] "," true false false)
    [("a", Value.num 1)] "b" rfl

/-- C4: string field serialization.  When `raw` is false the field is the
string with every embedded double quote doubled, wrapped in double quotes
(at the character level: a quote, the doubled body, a quote), and the naive
un-doubling recovers the original characters; when `raw` is true the field
is the string unmodified. -/
theorem c4_string_quoting (args : JCArgs) (s : String) :
    (args.raw = false →
      fieldOutput args (Value.str s) = Except.ok ("\"" ++ replaceQuote s ++ "\"") ∧
      ("\"" ++ replaceQuote s ++ "\"").data = '"' :: (doubleQuotesL s.data ++ ['"']) ∧
      unDoubleL (doubleQuotesL s.data) = s.data) ∧
    (args.raw = true → fieldOutput args (Value.str s) = Except.ok s) := by
  constructor
  · intro hraw
    refine ⟨by rw [fieldOutput, hraw]; rfl, ?_, unDouble_double s.data⟩
    rw [String.data_append, String.data_append]
    rfl
  · intro hraw
    rw [fieldOutput, hraw]
    rfl

/-- C4 witness: the spec's example string `a"b` quotes to `"a""b"` and
un-doubles back, and is passed through unchanged in raw mode. -/
theorem c4_witness :
    fieldOutput (JCArgs.mk ["a"] "," true false false) (Value.str "a\"b") =
      Except.ok ("\"" ++ replaceQuote "a\"b" ++ "\"") ∧
    unDoubleL (doubleQuotesL ("a\"b").data) = ("a\"b").data ∧
    fieldOutput (JCArgs.mk ["a"] "," true true false) (Value.str "a\"b") =
      Except.ok "a\"b" ∧
    "\"" ++ replaceQuote "a\"b" ++ "\"" = "\"a\"\"b\"" :=
  ⟨((c4_string_quoting (JCArgs.mk ["a"] "," true false false) "a\"b").1 rfl).1,
    ((c4_string_quoting (JCArgs.mk ["a"] "," true false false) "a\"b").1 rfl).2.2,
    (c4_string_quoting (JCArgs.mk ["a"] "," true true false) "a\"b").2 rfl,
    by decide⟩

/-- C5: `print_line` fails with the `invalid json object` error exactly when
the element is not a JSON Object (and then it writes nothing and renders the
offending value into the error); in concatenated mode a stream holding one
JSON Array yields that array as a record, and the run fails projecting it
because an Array is not an Object. -/
theorem c5_invalid_json_object_iff (args : JCArgs) (v : Value) (hcols : args.columns ≠ []) :
    ((∃ out r, print_line v args = some (out, some (JCError.invalidJsonObject r))) ↔
      v.isObject = false) ∧
    (v.isObject = false →
      print_line v args = some ("", some (JCError.invalidJsonObject (render v)))) ∧
    (∀ (p : Except Unit Value) (xs : List Value) (h0 : String),
      args.no_root = true → print_header args = some h0 →
      run args p [DecodeItem.ok (Value.arr xs)] =
        some (h0, some (JCError.invalidJsonObject (render (Value.arr xs))))) := by
  refine ⟨⟨?_, ?_⟩, ?_, ?_⟩
  · rintro ⟨out, r, heq⟩
    cases v with
    | obj fs =>
      exfalso
      rw [print_line, usizeSub_length_one hcols] at heq
      have heq2 : some (printColumns args fs (args.columns.length - 1) 0 args.columns) =
          some (out, some (JCError.invalidJsonObject r)) := heq
      have h3 := congrArg Prod.snd (Option.some.inj heq2)
      rw [printColumns_snd args fs (args.columns.length - 1) args.columns 0] at h3
      cases hfn : firstNested args.columns fs with
      | none => rw [hfn] at h3; simp at h3
      | some w => rw [hfn] at h3; simp at h3
    | null => rfl
    | bool b => rfl
    | num n => rfl
    | str s => rfl
    | arr xs => rfl
  · intro h
    exact ⟨"", render v, print_line_not_object hcols h⟩
  · intro h
    exact print_line_not_object hcols h
  · intro p xs h0 hroot hh
    have hpl : print_line (Value.arr xs) args =
        some ("", some (JCError.invalidJsonObject (render (Value.arr xs)))) :=
      print_line_not_object hcols rfl
    have hps : processStream args [DecodeItem.ok (Value.arr xs)] =
        some ("", some (JCError.invalidJsonObject (render (Value.arr xs)))) := by
      rw [processStream, hpl]
    rw [run, hroot]
    show runConcat args [DecodeItem.ok (Value.arr xs)] =
      some (h0, some (JCError.invalidJsonObject (render (Value.arr xs))))
    simp only [runConcat, hh, hps]
    rw [String.append_empty]

/-- C5 witness: a Number element fails with the `invalid json object` error
carrying its rendering. -/
theorem c5_witness :
    print_line (Value.num 7) (JCArgs.mk ["a"] "," true false false) =
      some ("", some (JCError.invalidJsonObject (render (Value.num 7)))) :=
  (c5_invalid_json_object_iff (JCArgs.mk ["a"] "," true false false) (Value.num 7)
    (by decide)).2.1 rfl

/-- C6: in single-document mode (no-root unset) a decoded root that is not
an Array fails with the `root object is not an array` shape error and
produces no record lines (no output at all), and an Array root has its
elements projected in their stored order, each contributing its line after
the header. -/
theorem c6_single_mode_array_required (args : JCArgs) (stream : List DecodeItem)
    (hroot : args.no_root = false) :
    (∀ v : Value, v.isArray = false →
      run args (Except.ok v) stream = some ("", some JCError.rootNotArray)) ∧
    (∀ (es : List Value) (h0 : String), print_header args = some h0 →
      (∀ v ∈ es, printOk args v) →
      run args (Except.ok (Value.arr es)) stream =
        some (h0 ++ concatAll (es.map (lineOf args)), none)) := by
  constructor
  · intro v hv
    rw [run, hroot]
    show runSingle args (Except.ok v) = some ("", some JCError.rootNotArray)
    cases v with
    | arr xs => simp [Value.isArray] at hv
    | null => rfl
    | bool b => rfl
    | num n => rfl
    | str s => rfl
    | obj fs => rfl
  · intro es h0 hh hok
    have hpe := processElements_allOk args es hok
    rw [run, hroot]
    show runSingle args (Except.ok (Value.arr es)) =
      some (h0 ++ concatAll (es.map (lineOf args)), none)
    simp only [runSingle, hh, hpe]

/-- C6 witness: a Number root in single-document mode fails with the shape
error and writes nothing. -/
theorem c6_witness :
    run (JCArgs.mk ["a"] "," true false false) (Except.ok (Value.num 1)) [] =
      some ("", some JCError.rootNotArray) :=
  (c6_single_mode_array_required (JCArgs.mk ["a"] "," true false false) [] rfl).1
    (Value.num 1) rfl

/-- C7: the header line, when enabled, is the separator-joined column names
plus a newline (and nothing when disabled); an all-scalar row is the
separator-joined serialized fields plus a single trailing newline (separator
after every column except the last); and in single-document mode the run's
output is the header followed by the element lines, so the header appears
exactly once before any record line. -/
theorem c7_row_header_shape (args : JCArgs) (fields : List (String × Value))
    (hcols : args.columns ≠ []) :
    (args.show_headers = true →
      print_header args = some (joinSep args.separator args.columns ++ "\n")) ∧
    (args.show_headers = false → print_header args = some "") ∧
    ((∀ c ∈ args.columns, (objIndex fields c).isNested = false) →
      print_line (Value.obj fields) args =
        some (joinSep args.separator
            (args.columns.map fun c => scalarText args (objIndex fields c)) ++ "\n",
          none)) ∧
    (∀ (h0 out : String) (es : List Value) (err : Option JCError) (st : List DecodeItem),
      args.no_root = false → print_header args = some h0 →
      processElements args es = some (out, err) →
      run args (Except.ok (Value.arr es)) st = some (h0 ++ out, err)) := by
  refine ⟨fun hs => print_header_show hs hcols, ?_, ?_, ?_⟩
  · intro hs
    rw [print_header, hs]
    rfl
  · intro hsc
    have hj := printColumns_joinSep args fields args.columns 0 hcols hsc
    rw [print_line, usizeSub_length_one hcols]
    show some (printColumns args fields (args.columns.length - 1) 0 args.columns) =
      some (joinSep args.separator
          (args.columns.map fun c => scalarText args (objIndex fields c)) ++ "\n",
        none)
    have harith : args.columns.length - 1 = 0 + args.columns.length - 1 := by omega
    rw [harith, hj]
  · intro h0 out es err st hroot hh hpe
    rw [run, hroot]
    show runSingle args (Except.ok (Value.arr es)) = some (h0 ++ out, err)
    simp only [runSingle, hh, hpe]

/-- C7 witness: the two-column header line at the default separator. -/
theorem c7_witness :
    print_header (JCArgs.mk ["a", "b"] "," true false false) =
      some (joinSep "," ["a", "b"] ++ "\n") :=
  (c7_row_header_shape (JCArgs.mk ["a", "b"] "," true false false) [] (by decide)).1 rfl

/-- C8: the element loop writes one line per successfully printed Object and
aborts at the first failing element, leaving the good prefix's lines (and
the failing element's partial output) and consuming nothing further; an
empty array in single-document mode and an empty stream in concatenated
mode both succeed with zero record lines, the header alone being written
when enabled. -/
theorem c8_record_count_abort (args : JCArgs) :
    (∀ es : List Value, (∀ v ∈ es, printOk args v) →
      processElements args es = some (concatAll (es.map (lineOf args)), none) ∧
      (es.map (lineOf args)).length = es.length) ∧
    (∀ (goods : List Value) (bad : Value) (rest : List Value) (outb : String) (e : JCError),
      (∀ v ∈ goods, printOk args v) →
      print_line bad args = some (outb, some e) →
      processElements args (goods ++ bad :: rest) =
        some (concatAll (goods.map (lineOf args)) ++ outb, some e)) ∧
    (∀ (h0 : String) (st : List DecodeItem), args.no_root = false →
      print_header args = some h0 →
      run args (Except.ok (Value.arr [])) st = some (h0, none)) ∧
    (∀ (h0 : String) (p : Except Unit Value), args.no_root = true →
      print_header args = some h0 → run args p [] = some (h0, none)) := by
  refine ⟨?_, ?_, ?_, ?_⟩
  · intro es hok
    exact ⟨processElements_allOk args es hok, List.length_map es (lineOf args)⟩
  · intro goods bad rest outb e hok hbad
    exact processElements_abort args goods bad rest outb e hok hbad
  · intro h0 st hroot hh
    rw [run, hroot]
    show runSingle args (Except.ok (Value.arr [])) = some (h0, none)
    simp only [runSingle, hh, processElements]
    rw [String.append_empty]
  · intro h0 p hroot hh
    rw [run, hroot]
    show runConcat args [] = some (h0, none)
    simp only [runConcat, hh, processStream]
    rw [String.append_empty]

/-- C8 witness: the empty single-document array writes the header alone and
succeeds. -/
theorem c8_witness :
    run (JCArgs.mk ["a"] "," true false false) (Except.ok (Value.arr [])) [] =
      some ("a\n", none) :=
  (c8_record_count_abort (JCArgs.mk ["a"] "," true false false)).2.2.1 "a\n" [] rfl rfl

/-- C9: failure-time output differs by mode.  In single-document mode a
parse failure or a non-Array root writes zero bytes — not even the header —
while in concatenated mode the header has already been written when the
first value turns out malformed, so a (non-empty, when enabled) header line
can precede the parse error. -/
theorem c9_failure_output_order (args : JCArgs) :
    (args.no_root = false → ∀ st : List DecodeItem,
      run args (Except.error ()) st = some ("", some JCError.parseError) ∧
      (∀ v : Value, v.isArray = false →
        run args (Except.ok v) st = some ("", some JCError.rootNotArray))) ∧
    (args.no_root = true →
      ∀ (p : Except Unit Value) (rest : List DecodeItem) (h0 : String),
        print_header args = some h0 →
        run args p (DecodeItem.err :: rest) = some (h0, some JCError.parseError)) ∧
    (args.show_headers = true → args.columns ≠ [] →
      ∃ h0, print_header args = some h0 ∧ h0 ≠ "") := by
  refine ⟨?_, ?_, ?_⟩
  · intro hroot st
    constructor
    · rw [run, hroot]
      rfl
    · intro v hv
      rw [run, hroot]
      show runSingle args (Except.ok v) = some ("", some JCError.rootNotArray)
      cases v with
      | arr xs => simp [Value.isArray] at hv
      | null => rfl
      | bool b => rfl
      | num n => rfl
      | str s => rfl
      | obj fs => rfl
  · intro hroot p rest h0 hh
    rw [run, hroot]
    show runConcat args (DecodeItem.err :: rest) = some (h0, some JCError.parseError)
    simp only [runConcat, hh, processStream]
    rw [String.append_empty]
  · intro hs hcols
    refine ⟨joinSep args.separator args.columns ++ "\n", print_header_show hs hcols, ?_⟩
    intro he
    have hd := congrArg String.data he
    rw [String.data_append] at hd
    simp at hd

/-- C9 witness: with a malformed first value in concatenated mode the header
line is written before the parse error aborts the run. -/
theorem c9_witness :
    run (JCArgs.mk ["a"] "," true false true) (Except.ok Value.null) [DecodeItem.err] =
      some ("a\n", some JCError.parseError) :=
  (c9_failure_output_order (JCArgs.mk ["a"] "," true false true)).2.1 rfl
    (Except.ok Value.null) [] "a\n" rfl

/-- C10: with a non-empty column list the `columns.len() - 1` subtraction in
`print_line` and `print_header` cannot underflow and both operations
complete (no panic branch), while an empty column list makes the checked
subtraction underflow and `print_line` hit the panic branch. -/
theorem c10_len_sub_underflow (args : JCArgs) (v : Value) (hcols : args.columns ≠ []) :
    usizeSub args.columns.length 1 ≠ none ∧
    (print_line v args).isSome ∧
    (print_header args).isSome ∧
    (∀ args2 : JCArgs, args2.columns = [] →
      usizeSub args2.columns.length 1 = none ∧ ∀ w : Value, print_line w args2 = none) := by
  refine ⟨?_, ?_, ?_, ?_⟩
  · rw [usizeSub_length_one hcols]
    simp
  · rw [print_line, usizeSub_length_one hcols]
    cases v <;> rfl
  · by_cases hs : args.show_headers
    · rw [print_header_show hs hcols]
      rfl
    · rw [print_header, if_neg hs]
      rfl
  · intro args2 h2
    constructor
    · rw [h2]
      rfl
    · intro w
      rw [print_line, h2]
      rfl

/-- C10 witness: a singleton column list keeps `print_line` away from the
underflow branch. -/
theorem c10_witness :
    (print_line Value.null (JCArgs.mk ["a"] "," true false false)).isSome :=
  (c10_len_sub_underflow (JCArgs.mk ["a"] "," true false false) Value.null (by decide)).2.1

end JC
